import Mathlib

/-!
# Verification of the Kundali front-end form logic

Shallow embedding of the stateful logic of the repository
(`src/Frontend/components/form/MultiStepForm.tsx`,
`src/Frontend/components/form/BirthDetailsStep.tsx` (which also holds the
`LocationStep` component and `searchLocations`),
`src/Frontend/components/results/PlanetaryPositions.tsx`,
`src/Frontend/components/kundali/kundali-results.tsx`, and the results page
that reads local storage).

Modelling conventions:
* JavaScript strings are Lean `String`s; `jsTrim` models `.trim()` and
  `jsToLower` models `.toLowerCase()` (the exact whitespace/case sets
  differ only at code points no claim depends on).
* `Date | undefined` is `Option Nat` (an abstract timestamp: only presence
  is ever inspected by the form logic), `number | null` is `Option Rat`.
* The `Record<string, string>` error object is an association list
  `List (String × String)`; `delete obj[k]` is a filter on the key, the
  truthiness test `if (errors[field])` is `jsTruthyStr` (a present but
  empty-string message is falsy in JavaScript).
* Side effects (toasts, `setTimeout`-scheduled navigation, local-storage
  writes) are reified as an explicit `Effect` list returned by each
  handler; the handlers perform no other effects in the source.
* `JSON.stringify`/`JSON.parse` of the form snapshot is modelled
  structurally (`StoredVal.json` carries the record); the round trip is the
  identity on the `name` field, the only field the reader uses.
-/

namespace Kundali

/-- A character is "non-space" in the sense of the regex class `\S`. -/
def isNonSpace (c : Char) : Bool := !c.isWhitespace

/-- JavaScript `s.trim()`: remove whitespace from both ends. -/
def jsTrim (s : String) : String :=
  ⟨((s.data.dropWhile Char.isWhitespace).reverse.dropWhile
      Char.isWhitespace).reverse⟩

/-- JavaScript `s.toLowerCase()` (ASCII case mapping, which covers every
string occurring in the mock data). -/
def jsToLower (s : String) : String := ⟨s.data.map Char.toLower⟩

/-- Semantics of the unanchored JavaScript test
`/\S+@\S+\.\S+/.test(s)`: the string contains a contiguous substring
`A ++ "@" ++ B ++ "." ++ C` with `A`, `B`, `C` non-empty runs of
non-whitespace characters.  Equivalently there are positions `p < q` with
`s[p] = '@'`, `s[q] = '.'`, a non-space character just before `p`, only
non-space characters strictly between `p` and `q` (at least one), and a
non-space character just after `q`. -/
def emailRegexTest (s : String) : Bool :=
  let cs := s.data
  let n := cs.length
  (List.range n).any fun p =>
    (List.range n).any fun q =>
      decide (1 ≤ p) && decide (p + 2 ≤ q) && decide (q + 1 < n) &&
      (cs.getD p ' ' == '@') && (cs.getD q ' ' == '.') &&
      isNonSpace (cs.getD (p - 1) ' ') &&
      ((List.range n).all fun r =>
        !(decide (p < r) && decide (r < q)) || isNonSpace (cs.getD r ' ')) &&
      isNonSpace (cs.getD (q + 1) ' ')

/-- The `FormData` interface of `MultiStepForm.tsx`. -/
structure FormData where
  name : String
  email : String
  birthDate : Option Nat
  birthTime : String
  birthCity : String
  birthCountry : String
  latitude : Option Rat
  longitude : Option Rat
deriving DecidableEq

/-- The field names accepted by `handleUpdateFormData`. -/
inductive Field where
  | name | email | birthDate | birthTime | birthCity | birthCountry
  | latitude | longitude
deriving DecidableEq

/-- The type of the value stored in each field. -/
def FieldType : Field → Type
  | .name => String
  | .email => String
  | .birthDate => Option Nat
  | .birthTime => String
  | .birthCity => String
  | .birthCountry => String
  | .latitude => Option Rat
  | .longitude => Option Rat

/-- The string key of a field, as used in the error map. -/
def Field.key : Field → String
  | .name => "name"
  | .email => "email"
  | .birthDate => "birthDate"
  | .birthTime => "birthTime"
  | .birthCity => "birthCity"
  | .birthCountry => "birthCountry"
  | .latitude => "latitude"
  | .longitude => "longitude"

/-- `{ ...prev, [field]: value }` of `handleUpdateFormData`. -/
def setField (fd : FormData) : (f : Field) → FieldType f → FormData
  | .name, v => { fd with name := v }
  | .email, v => { fd with email := v }
  | .birthDate, v => { fd with birthDate := v }
  | .birthTime, v => { fd with birthTime := v }
  | .birthCity, v => { fd with birthCity := v }
  | .birthCountry, v => { fd with birthCountry := v }
  | .latitude, v => { fd with latitude := v }
  | .longitude, v => { fd with longitude := v }

/-- Projection of a field value out of the record. -/
def getField (fd : FormData) : (f : Field) → FieldType f
  | .name => fd.name
  | .email => fd.email
  | .birthDate => fd.birthDate
  | .birthTime => fd.birthTime
  | .birthCity => fd.birthCity
  | .birthCountry => fd.birthCountry
  | .latitude => fd.latitude
  | .longitude => fd.longitude

/-- The component state of `MultiStepForm`: `currentStep`, `formData`,
`errors`.  The step index is an `Int`, matching the JavaScript number. -/
structure FormState where
  currentStep : Int
  formData : FormData
  errors : List (String × String)
deriving DecidableEq

/-- Local-storage values: the JSON snapshot of the form record, or a plain
string. -/
inductive StoredVal where
  | json (fd : FormData)
  | str (s : String)
deriving DecidableEq

/-- The observable side effects performed by the handlers. -/
inductive Effect where
  | toastSuccess (title desc : String)
  | toastInfo (msg : String)
  | scheduleNavigate (route : String) (delayMs : Nat)
  | localStorageSet (key : String) (val : StoredVal)
deriving DecidableEq

/-- Whether an effect writes persistent (local-storage) state. -/
def Effect.isStorageWrite : Effect → Bool
  | .localStorageSet _ _ => true
  | _ => false

/-- `const steps = ["Personal Information", "Birth Details", "Birth Location"]`. -/
def steps : List String :=
  ["Personal Information", "Birth Details", "Birth Location"]

/-- The initial value passed to `useState<FormData>`. -/
def initialFormData : FormData :=
  { name := "", email := "", birthDate := none, birthTime := "",
    birthCity := "", birthCountry := "", latitude := none, longitude := none }

/-- The initial component state: step 0, empty form, empty error map. -/
def initialState : FormState :=
  { currentStep := 0, formData := initialFormData, errors := [] }

/-- The `newErrors` object built by `validateCurrentStep` for a given step
and form data, in the order the source inserts the keys. -/
def validateErrors (step : Int) (fd : FormData) : List (String × String) :=
  if step = 0 then
    (if jsTrim fd.name = "" then [("name", "Name is required")] else []) ++
    (if jsTrim fd.email = "" then [("email", "Email is required")]
     else if !emailRegexTest fd.email then [("email", "Email is invalid")]
     else [])
  else if step = 1 then
    (if fd.birthDate = none then [("birthDate", "Birth date is required")] else []) ++
    (if fd.birthTime = "" then [("birthTime", "Birth time is required")] else [])
  else if step = 2 then
    (if jsTrim fd.birthCity = "" then [("birthCity", "Birth city is required")] else []) ++
    (if jsTrim fd.birthCountry = "" then [("birthCountry", "Birth country is required")] else [])
  else []

/-- `validateCurrentStep`: stores the fresh error map via `setErrors` and
returns whether it is empty (`Object.keys(newErrors).length === 0`). -/
def validateCurrentStep (st : FormState) : FormState × Bool :=
  let ne := validateErrors st.currentStep st.formData
  ({ st with errors := ne }, ne.isEmpty)

/-- `handleSubmit`: re-validates; on success fires the success toast and
schedules `router.push("/results")` after 1500 ms.  No other effect. -/
def handleSubmit (st : FormState) : FormState × List Effect :=
  let p := validateCurrentStep st
  if p.2 then
    (p.1, [Effect.toastSuccess "Form submitted successfully!"
             "Redirecting to your results...",
           Effect.scheduleNavigate "/results" 1500])
  else (p.1, [])

/-- `handleNext`: validates; on success advances when not on the last step,
otherwise submits. -/
def handleNext (st : FormState) : FormState × List Effect :=
  let p := validateCurrentStep st
  if p.2 then
    if p.1.currentStep < (steps.length : Int) - 1 then
      ({ p.1 with currentStep := p.1.currentStep + 1 }, [])
    else handleSubmit p.1
  else (p.1, [])

/-- `handlePrevious`: decrements the step when it is positive. -/
def handlePrevious (st : FormState) : FormState :=
  if st.currentStep > 0 then { st with currentStep := st.currentStep - 1 }
  else st

/-- JavaScript truthiness of `errors[field]` (an optional string). -/
def jsTruthyStr : Option String → Bool
  | some s => !(s == "")
  | none => false

/-- `handleUpdateFormData`: spreads the new value into the form record and,
when the field currently has a (truthy) error message, deletes that entry
from the error map. -/
def handleUpdateFormData (st : FormState) (f : Field) (v : FieldType f) :
    FormState :=
  { st with
    formData := setField st.formData f v,
    errors :=
      if jsTruthyStr (st.errors.lookup f.key) then
        st.errors.filter (fun p => !(p.1 == f.key))
      else st.errors }

/-- `handleSaveProgress`: writes the JSON form snapshot and the step index
to local storage and fires a toast; the component state is untouched. -/
def handleSaveProgress (st : FormState) : FormState × List Effect :=
  (st, [Effect.localStorageSet "kundaliFormData" (.json st.formData),
        Effect.localStorageSet "kundaliFormStep" (.str (toString st.currentStep)),
        Effect.toastSuccess "Progress saved!"
          "You can resume from this point later."])

/-- `handleReset`: restores the initial form record, step 0 and empty error
map, and fires an info toast. -/
def handleReset (_st : FormState) : FormState × List Effect :=
  ({ currentStep := 0, formData := initialFormData, errors := [] },
   [Effect.toastInfo "Form has been reset"])

/-- A browser local-storage snapshot. -/
def LocalStore := List (String × StoredVal)

/-- Apply one effect to local storage (`localStorage.setItem` overwrites
the key; other effects leave storage unchanged). -/
def applyEffect (ls : LocalStore) : Effect → LocalStore
  | .localStorageSet k v => (k, v) :: ls.filter (fun p => !(p.1 == k))
  | _ => ls

/-- Apply a list of effects to local storage, in order. -/
def applyEffects (ls : LocalStore) (es : List Effect) : LocalStore :=
  es.foldl applyEffect ls

/-- The results page (`ResultsPage` in the unnamed source part): reads
`localStorage.getItem("kundaliFormData")` and displays
`parsedData.name || "User"`, defaulting to `"User"` when the entry is
absent (or the stored name is empty, both falsy). -/
def resultsPageUserName (ls : LocalStore) : String :=
  match List.lookup "kundaliFormData" ls with
  | some (.json fd) => if fd.name = "" then "User" else fd.name
  | _ => "User"

/-! ## Location search (`LocationStep` in `BirthDetailsStep.tsx`) -/

/-- A mock location entry: `{ city, country, lat, lng }`. -/
structure Location where
  city : String
  country : String
  lat : Rat
  lng : Rat
deriving DecidableEq

/-- The constant six-entry `mockData` list of `searchLocations`. -/
def mockData : List Location :=
  [ { city := "New York", country := "United States", lat := 40.7128, lng := -74.0060 },
    { city := "London", country := "United Kingdom", lat := 51.5074, lng := -0.1278 },
    { city := "Tokyo", country := "Japan", lat := 35.6762, lng := 139.6503 },
    { city := "Mumbai", country := "India", lat := 19.0760, lng := 72.8777 },
    { city := "Delhi", country := "India", lat := 28.7041, lng := 77.1025 },
    { city := "Berlin", country := "Germany", lat := 52.5200, lng := 13.4050 } ]

/-- `startsWithChars needle haystack`: the needle is an initial segment of
the haystack (character lists). -/
def startsWithChars : List Char → List Char → Bool
  | [], _ => true
  | _ :: _, [] => false
  | a :: as, b :: bs => a == b && startsWithChars as bs

/-- `containsChars needle haystack`: JavaScript `haystack.includes(needle)`
on character lists. -/
def containsChars (needle : List Char) : List Char → Bool
  | [] => needle.isEmpty
  | c :: t => startsWithChars needle (c :: t) || containsChars needle t

/-- `haystack.includes(needle)` on strings. -/
def strIncludes (haystack needle : String) : Bool :=
  containsChars needle.data haystack.data

/-- The filter predicate of `searchLocations`:
`location.city.toLowerCase().includes(query.toLowerCase()) ||
 location.country.toLowerCase().includes(query.toLowerCase())`. -/
def locMatches (loc : Location) (query : String) : Bool :=
  strIncludes (jsToLower loc.city) (jsToLower query) ||
  strIncludes (jsToLower loc.country) (jsToLower query)

/-- `searchLocations`: returns `[]` for a falsy (empty) query, otherwise
filters the constant `mockData` list.  (The source wraps the result in a
resolved promise; the computation is purely local.) -/
def searchLocations (query : String) : List Location :=
  if query = "" then []
  else mockData.filter (fun loc => locMatches loc query)

/-- Spec-level notion: `needle` occurs as a contiguous substring of
`haystack`. -/
def SubstringOf (needle haystack : List Char) : Prop :=
  ∃ pre post, haystack = pre ++ needle ++ post

/-- The local state of the `LocationStep` component relevant to the
debounced search: the query, the shown results, and the query captured by
the currently pending `setTimeout` (if any). -/
structure SearchState where
  searchQuery : String
  searchResults : List Location
  pendingTimer : Option String
deriving DecidableEq

/-- The debounce delay passed to `setTimeout` in the `useEffect`. -/
def searchDebounceMs : Nat := 500

/-- A change of `searchQuery`: the effect cleanup clears the pending timer
and the effect schedules a fresh one capturing the new query; the returned
number is the delay of the scheduled timer (always `searchDebounceMs`). -/
def onQueryChange (s : SearchState) (q : String) : SearchState × Nat :=
  ({ s with searchQuery := q, pendingTimer := some q }, searchDebounceMs)

/-- The pending timer fires: when the captured query is longer than 2
characters the mock lookup runs and its results are stored, otherwise the
results are cleared; in both cases the timer is spent. -/
def onTimerFire (s : SearchState) : SearchState :=
  match s.pendingTimer with
  | none => s
  | some q =>
    { s with
      pendingTimer := none,
      searchResults := if q.length > 2 then searchLocations q else [] }

/-- `handleLocationSelect`: four `updateFormData` calls (city, country,
latitude, longitude), then the query becomes `"city, country"` and the
results list is emptied.  The four updates touch four distinct keys, so the
stale-closure read of `errors` in each call agrees with the sequential
composition used here. -/
def handleLocationSelect (st : FormState) (s : SearchState) (loc : Location) :
    FormState × SearchState :=
  let st1 := handleUpdateFormData st .birthCity loc.city
  let st2 := handleUpdateFormData st1 .birthCountry loc.country
  let st3 := handleUpdateFormData st2 .latitude (some loc.lat)
  let st4 := handleUpdateFormData st3 .longitude (some loc.lng)
  (st4,
   { s with
     searchQuery := loc.city ++ ", " ++ loc.country,
     searchResults := [] })

/-! ## Results fixtures -/

/-- A row of a planetary-positions table. -/
structure PlanetRow where
  planet : String
  sign : String
  degree : String
  house : Nat
  retrograde : Bool
deriving DecidableEq

/-- The module-level `planetaryData` constant of
`results/PlanetaryPositions.tsx`. -/
def planetaryData : List PlanetRow :=
  [ { planet := "Sun", sign := "Taurus", degree := "15\xb0 42\x27", house := 1, retrograde := false },
    { planet := "Moon", sign := "Pisces", degree := "28\xb0 17\x27", house := 11, retrograde := false },
    { planet := "Mars", sign := "Capricorn", degree := "09\xb0 03\x27", house := 9, retrograde := false },
    { planet := "Mercury", sign := "Taurus", degree := "20\xb0 58\x27", house := 1, retrograde := false },
    { planet := "Jupiter", sign := "Scorpio", degree := "07\xb0 16\x27", house := 7, retrograde := true },
    { planet := "Venus", sign := "Gemini", degree := "02\xb0 34\x27", house := 2, retrograde := false },
    { planet := "Saturn", sign := "Capricorn", degree := "24\xb0 51\x27", house := 9, retrograde := true },
    { planet := "Rahu", sign := "Cancer", degree := "06\xb0 10\x27", house := 3, retrograde := true },
    { planet := "Ketu", sign := "Capricorn", degree := "06\xb0 10\x27", house := 9, retrograde := true } ]

/-- The module-level `planets` constant of `kundali/kundali-results.tsx`. -/
def planets : List PlanetRow :=
  [ { planet := "Sun", sign := "Aries", degree := "15\xb0 23\x27", house := 1, retrograde := false },
    { planet := "Moon", sign := "Taurus", degree := "8\xb0 45\x27", house := 2, retrograde := false },
    { planet := "Mercury", sign := "Pisces", degree := "2\xb0 18\x27", house := 12, retrograde := true },
    { planet := "Venus", sign := "Aquarius", degree := "25\xb0 07\x27", house := 11, retrograde := false },
    { planet := "Mars", sign := "Capricorn", degree := "19\xb0 34\x27", house := 10, retrograde := false },
    { planet := "Jupiter", sign := "Leo", degree := "11\xb0 42\x27", house := 5, retrograde := false },
    { planet := "Saturn", sign := "Scorpio", degree := "28\xb0 56\x27", house := 8, retrograde := true },
    { planet := "Rahu", sign := "Virgo", degree := "3\xb0 12\x27", house := 6, retrograde := false },
    { planet := "Ketu", sign := "Pisces", degree := "3\xb0 12\x27", house := 12, retrograde := false } ]

/-- A row of the houses table. -/
structure HouseRow where
  house : Nat
  sign : String
  planets : List String
deriving DecidableEq

/-- The module-level `houses` constant of `kundali/kundali-results.tsx`. -/
def houses : List HouseRow :=
  [ { house := 1, sign := "Aries", planets := ["Sun"] },
    { house := 2, sign := "Taurus", planets := ["Moon"] },
    { house := 3, sign := "Gemini", planets := [] },
    { house := 4, sign := "Cancer", planets := [] },
    { house := 5, sign := "Leo", planets := ["Jupiter"] },
    { house := 6, sign := "Virgo", planets := ["Rahu"] },
    { house := 7, sign := "Libra", planets := [] },
    { house := 8, sign := "Scorpio", planets := ["Saturn"] },
    { house := 9, sign := "Sagittarius", planets := [] },
    { house := 10, sign := "Capricorn", planets := ["Mars"] },
    { house := 11, sign := "Aquarius", planets := ["Venus"] },
    { house := 12, sign := "Pisces", planets := ["Mercury", "Ketu"] } ]

/-- A Dasha period row. -/
structure DashaRow where
  period : String
  startDate : String
  endDate : String
  description : String
deriving DecidableEq

/-- The module-level `dashas` constant of `kundali/kundali-results.tsx`. -/
def dashas : List DashaRow :=
  [ { period := "Ketu Mahadasha", startDate := "Jan 2020", endDate := "Jan 2027",
      description := "A period of spiritual growth and introspection. There may be sudden changes and detachments from material desires. Good for meditation and inner work." },
    { period := "Venus Mahadasha", startDate := "Jan 2027", endDate := "Jan 2047",
      description := "A period focused on relationships, creativity, and comforts. Favorable for marriage, arts, and financial growth if Venus is well-placed in the chart." },
    { period := "Sun Mahadasha", startDate := "Jan 2047", endDate := "Jan 2053",
      description := "A period highlighting leadership, authority, and self-identity. May bring recognition, career advancement, and improved relationship with father figures." } ]

/-- The `formData` props record of `KundaliResults`. -/
structure KundaliFormData where
  name : String
  date : Option Nat
  place : String
  timezone : String
deriving DecidableEq

/-- The data rendered into the planets table of `KundaliResults`: the
component maps over the module constant `planets`, ignoring its `formData`
prop. -/
def kundaliResultsPlanets (_fd : KundaliFormData) : List PlanetRow := planets

/-- The data rendered into the houses table of `KundaliResults`. -/
def kundaliResultsHouses (_fd : KundaliFormData) : List HouseRow := houses

/-- The data rendered into the Dashas section of `KundaliResults`. -/
def kundaliResultsDashas (_fd : KundaliFormData) : List DashaRow := dashas

/-- The data rendered by `PlanetaryPositions`: skeletons while loading,
otherwise the module constant `planetaryData`; the component receives no
form data at all. -/
def planetaryPositionsRows (isLoading : Bool) : Option (List PlanetRow) :=
  if isLoading then none else some planetaryData

/-! ## Operation machine over the form state -/

/-- The user-driven operations of the wizard. -/
inductive Op where
  | next
  | back
  | reset
  | save
  | update : (f : Field) → FieldType f → Op

/-- Apply one operation to the form state (effects discarded). -/
def applyOp (st : FormState) : Op → FormState
  | .next => (handleNext st).1
  | .back => handlePrevious st
  | .reset => (handleReset st).1
  | .save => (handleSaveProgress st).1
  | .update f v => handleUpdateFormData st f v

/-- Run a sequence of operations from a state. -/
def runOps (st : FormState) : List Op → FormState
  | [] => st
  | op :: rest => runOps (applyOp st op) rest

/-! ## Helper lemmas -/

/-- `List.lookup` on a cons cell, phrased with a propositional test. -/
lemma lookup_cons {β : Type} (k : String) (a : String × β)
    (t : List (String × β)) :
    List.lookup k (a :: t) = if k = a.1 then some a.2 else List.lookup k t := by
  by_cases h : k = a.1
  · simp [List.lookup, h]
  · have hb : (k == a.1) = false := beq_false_of_ne h
    simp [List.lookup, h, hb]

/-- A successful lookup comes from a member of the association list. -/
lemma lookup_mem {β : Type} {k : String} {v : β} :
    ∀ {l : List (String × β)}, List.lookup k l = some v → (k, v) ∈ l := by
  intro l
  induction l with
  | nil => intro h; simp [List.lookup] at h
  | cons a t ih =>
    intro h
    rw [lookup_cons] at h
    by_cases hk : k = a.1
    · rw [if_pos hk] at h
      obtain rfl : v = a.2 := by injection h with h2; exact h2.symm
      rw [hk]
      exact List.mem_cons_self a t
    · rw [if_neg hk] at h
      exact List.mem_cons_of_mem _ (ih h)

/-- Filtering out a key makes its lookup fail. -/
lemma lookup_filterKey_self {β : Type} (k : String) (l : List (String × β)) :
    List.lookup k (l.filter (fun p => !(p.1 == k))) = none := by
  induction l with
  | nil => rfl
  | cons a t ih =>
    by_cases h : a.1 = k
    · simpa [List.filter_cons, h] using ih
    · simp [List.filter_cons, h, lookup_cons, Ne.symm h, ih]

/-- Filtering out one key leaves lookups of other keys unchanged. -/
lemma lookup_filterKey_ne {β : Type} {k k' : String} (hne : k' ≠ k)
    (l : List (String × β)) :
    List.lookup k' (l.filter (fun p => !(p.1 == k))) = List.lookup k' l := by
  induction l with
  | nil => rfl
  | cons a t ih =>
    by_cases h : a.1 = k
    · have hk : k' ≠ a.1 := h ▸ hne
      simp [List.filter_cons, h, lookup_cons, hk, hne, ih]
    · by_cases h2 : k' = a.1
      · simp [List.filter_cons, h, lookup_cons, h2]
      · simp [List.filter_cons, h, lookup_cons, h2, ih]

/-! ## Claims -/

/-- Claim C1: for every step, pressing Next with a failing required field of
the current step stores a non-empty field-to-message error map and leaves
the step index unchanged; when every check passes and the step is not the
last, the step index increases by exactly one. -/
theorem claim_c1 (st : FormState) :
    (validateErrors st.currentStep st.formData ≠ [] →
       (handleNext st).1.currentStep = st.currentStep ∧
       (handleNext st).1.errors = validateErrors st.currentStep st.formData ∧
       (handleNext st).1.errors ≠ []) ∧
    (validateErrors st.currentStep st.formData = [] → st.currentStep < 2 →
       (handleNext st).1.currentStep = st.currentStep + 1) := by
  constructor
  · intro h
    have hne : (validateErrors st.currentStep st.formData).isEmpty = false := by
      simpa [List.isEmpty_iff] using h
    simp [handleNext, validateCurrentStep, hne]
    exact h
  · intro h hlt
    have he : (validateErrors st.currentStep st.formData).isEmpty = true := by
      simp [h]
    have hlt2 : st.currentStep < (steps.length : Int) - 1 := by
      simpa [steps] using hlt
    simp [handleNext, validateCurrentStep, he, hlt2]

/-- Witness for C1: from the initial state the Next press is blocked at
step 0 (name and email are empty); with a valid name and email the step
index moves from 0 to 1. -/
theorem claim_c1_witness :
    ((handleNext initialState).1.currentStep = initialState.currentStep ∧
     (handleNext initialState).1.errors =
       validateErrors initialState.currentStep initialState.formData ∧
     (handleNext initialState).1.errors ≠ []) ∧
    (handleNext { currentStep := 0,
                  formData := { initialFormData with
                                name := "Ana", email := "ana@example.com" },
                  errors := [] }).1.currentStep = 0 + 1 :=
  ⟨(claim_c1 initialState).1 (by decide),
   (claim_c1 _).2 (by decide) (by decide)⟩

/-- Claim C2: on the last step, when validation succeeds, `handleSubmit`
fires exactly the success toast and a navigation to `"/results"` scheduled
after 1500 ms, and performs no other effect (in particular nothing is sent
to any backend); the state keeps its fields and step, with the error map
set to the empty map computed by validation. -/
theorem claim_c2 (st : FormState) (_hlast : st.currentStep = 2)
    (hok : validateErrors st.currentStep st.formData = []) :
    handleSubmit st =
      ({ st with errors := [] },
       [Effect.toastSuccess "Form submitted successfully!"
          "Redirecting to your results...",
        Effect.scheduleNavigate "/results" 1500]) := by
  simp [handleSubmit, validateCurrentStep, hok]

/-- Witness for C2: a concrete valid last-step state submits with the toast
and the 1500 ms scheduled navigation. -/
theorem claim_c2_witness :
    handleSubmit { currentStep := 2,
                   formData := { initialFormData with
                                 birthCity := "Pokhara", birthCountry := "Nepal" },
                   errors := [] } =
      ({ currentStep := 2,
         formData := { initialFormData with
                       birthCity := "Pokhara", birthCountry := "Nepal" },
         errors := [] },
       [Effect.toastSuccess "Form submitted successfully!"
          "Redirecting to your results...",
        Effect.scheduleNavigate "/results" 1500]) :=
  claim_c2 _ rfl (by decide)

/-- Claim C3: on the personal-info step (step 0) the `name` error is
`"Name is required"` exactly when the name trims to empty; the `email`
error is `"Email is required"` exactly when the email trims to empty and
`"Email is invalid"` exactly when it does not trim to empty but fails the
`/\S+@\S+\.\S+/` test; any error blocks advancement from step 0. -/
theorem claim_c3 (fd : FormData) :
    ((validateErrors 0 fd).lookup "name" = some "Name is required" ↔
       jsTrim fd.name = "") ∧
    ((validateErrors 0 fd).lookup "email" = some "Email is required" ↔
       jsTrim fd.email = "") ∧
    ((validateErrors 0 fd).lookup "email" = some "Email is invalid" ↔
       (jsTrim fd.email ≠ "" ∧ emailRegexTest fd.email = false)) ∧
    (∀ errs : List (String × String),
       (handleNext { currentStep := 0, formData := fd, errors := errs }).1.currentStep
         = if validateErrors 0 fd = [] then 1 else 0) := by
  refine ⟨?_, ?_, ?_, ?_⟩
  · by_cases hn : jsTrim fd.name = "" <;>
      by_cases he : jsTrim fd.email = "" <;>
      by_cases hr : emailRegexTest fd.email <;>
      simp [validateErrors, hn, he, hr, List.lookup]
  · by_cases hn : jsTrim fd.name = "" <;>
      by_cases he : jsTrim fd.email = "" <;>
      by_cases hr : emailRegexTest fd.email <;>
      simp [validateErrors, hn, he, hr, List.lookup]
  · by_cases hn : jsTrim fd.name = "" <;>
      by_cases he : jsTrim fd.email = "" <;>
      by_cases hr : emailRegexTest fd.email <;>
      simp [validateErrors, hn, he, hr, List.lookup]
  · intro errs
    by_cases hv : validateErrors 0 fd = []
    · have he : (validateErrors 0 fd).isEmpty = true := by simp [hv]
      simp [handleNext, validateCurrentStep, he, hv, steps]
    · have he : (validateErrors 0 fd).isEmpty = false := by
        simpa [List.isEmpty_iff] using hv
      simp [handleNext, validateCurrentStep, he, hv]

/-- `startsWithChars` decides "the needle is an initial segment". -/
lemma startsWithChars_iff (needle : List Char) :
    ∀ haystack : List Char,
      startsWithChars needle haystack = true ↔
        ∃ post, haystack = needle ++ post := by
  induction needle with
  | nil =>
    intro haystack
    simp [startsWithChars]
  | cons a as ih =>
    intro haystack
    cases haystack with
    | nil =>
      simp [startsWithChars]
    | cons b bs =>
      rw [startsWithChars]
      constructor
      · intro h
        obtain ⟨hab, hrest⟩ := Bool.and_eq_true_iff.mp h
        obtain ⟨post, hpost⟩ := (ih bs).mp hrest
        exact ⟨post, by simp [hpost, (beq_iff_eq.mp hab).symm]⟩
      · rintro ⟨post, hpost⟩
        rw [List.cons_append] at hpost
        injection hpost with hb hbs
        refine Bool.and_eq_true_iff.mpr ⟨beq_iff_eq.mpr hb.symm, (ih bs).mpr ⟨post, hbs⟩⟩

/-- `containsChars` decides substring occurrence. -/
lemma containsChars_iff (needle : List Char) :
    ∀ haystack : List Char,
      containsChars needle haystack = true ↔ SubstringOf needle haystack := by
  intro haystack
  induction haystack with
  | nil =>
    constructor
    · intro h
      have hn : needle = [] := by
        simpa [containsChars, List.isEmpty_iff] using h
      exact ⟨[], [], by simp [hn]⟩
    · rintro ⟨pre, post, hpp⟩
      have : pre = [] ∧ needle = [] ∧ post = [] := by
        constructor
        · cases pre with
          | nil => rfl
          | cons x xs => simp at hpp
        · constructor
          · cases pre with
            | nil =>
              cases needle with
              | nil => rfl
              | cons y ys => simp at hpp
            | cons x xs => simp at hpp
          · cases pre with
            | nil =>
              cases needle with
              | nil => simpa using hpp.symm
              | cons y ys => simp at hpp
            | cons x xs => simp at hpp
      simp [containsChars, this.2.1]
  | cons c t ih =>
    rw [containsChars, Bool.or_eq_true_iff, startsWithChars_iff, ih]
    constructor
    · rintro (⟨post, hpost⟩ | ⟨pre, post, hpp⟩)
      · exact ⟨[], post, by simp [hpost]⟩
      · exact ⟨c :: pre, post, by simp [hpp]⟩
    · rintro ⟨pre, post, hpp⟩
      cases pre with
      | nil =>
        exact Or.inl ⟨post, by simpa using hpp⟩
      | cons p ps =>
        injection hpp with hc ht
        exact Or.inr ⟨ps, post, ht⟩

/-- Claim C4: the mock lookup is a pure local filter over the constant
six-entry list — a location is returned exactly when the query is
non-empty and occurs case-insensitively inside its city or country — and
the empty query returns the empty list; a query change always schedules
the lookup behind a 500 ms timer that replaces (clears) any pending one,
and when that timer fires the lookup runs only for queries longer than 2
characters (shorter queries just clear the results). -/
theorem claim_c4 :
    mockData.length = 6 ∧
    (∀ (q : String) (loc : Location),
       loc ∈ searchLocations q ↔
         (q ≠ "" ∧ loc ∈ mockData ∧
           (SubstringOf (jsToLower q).data (jsToLower loc.city).data ∨
            SubstringOf (jsToLower q).data (jsToLower loc.country).data))) ∧
    searchLocations "" = [] ∧
    (∀ (s : SearchState) (q : String),
       onQueryChange s q =
         ({ s with searchQuery := q, pendingTimer := some q }, 500)) ∧
    (∀ (s : SearchState) (q : String),
       onTimerFire (onQueryChange s q).1 =
         { searchQuery := q,
           searchResults := if q.length > 2 then searchLocations q else [],
           pendingTimer := none }) := by
  refine ⟨rfl, ?_, rfl, ?_, ?_⟩
  · intro q loc
    by_cases hq : q = ""
    · simp [searchLocations, hq]
    · simp [searchLocations, hq, List.mem_filter, locMatches, strIncludes,
        Bool.or_eq_true_iff, containsChars_iff]
  · intro s q
    rfl
  · intro s q
    rfl

/-- Claim C5: selecting a location writes its city, country, latitude and
longitude into the corresponding form fields and empties the results
list. -/
theorem claim_c5 (st : FormState) (s : SearchState) (loc : Location) :
    (handleLocationSelect st s loc).1.formData.birthCity = loc.city ∧
    (handleLocationSelect st s loc).1.formData.birthCountry = loc.country ∧
    (handleLocationSelect st s loc).1.formData.latitude = some loc.lat ∧
    (handleLocationSelect st s loc).1.formData.longitude = some loc.lng ∧
    (handleLocationSelect st s loc).2.searchResults = [] := by
  refine ⟨?_, ?_, ?_, ?_, rfl⟩ <;>
    simp [handleLocationSelect, handleUpdateFormData, setField]

/-- Claim C6: from every form state, Reset restores every field to its
initial empty value (empty strings, no birth date, null coordinates), sets
the step index to 0 and empties the error map. -/
theorem claim_c6 (st : FormState) :
    (handleReset st).1.currentStep = 0 ∧
    (handleReset st).1.formData = initialFormData ∧
    (handleReset st).1.errors = [] ∧
    initialFormData.name = "" ∧
    initialFormData.email = "" ∧
    initialFormData.birthDate = none ∧
    initialFormData.birthTime = "" ∧
    initialFormData.birthCity = "" ∧
    initialFormData.birthCountry = "" ∧
    initialFormData.latitude = none ∧
    initialFormData.longitude = none := by
  refine ⟨rfl, rfl, rfl, rfl, rfl, rfl, rfl, rfl, rfl, rfl, rfl⟩

/-- The state returned by `handleSubmit` always carries the freshly
computed error map and nothing else changes. -/
lemma handleSubmit_fst (st : FormState) :
    (handleSubmit st).1 =
      { st with errors := validateErrors st.currentStep st.formData } := by
  by_cases h : (validateErrors st.currentStep st.formData).isEmpty <;>
    simp [handleSubmit, validateCurrentStep, h]

/-- `handleSubmit` never writes local storage. -/
lemma handleSubmit_no_storage (st : FormState) :
    (handleSubmit st).2.filter Effect.isStorageWrite = [] := by
  by_cases h : (validateErrors st.currentStep st.formData).isEmpty <;>
    simp [handleSubmit, validateCurrentStep, h, Effect.isStorageWrite]

/-- `handleNext` never writes local storage. -/
lemma handleNext_no_storage (st : FormState) :
    (handleNext st).2.filter Effect.isStorageWrite = [] := by
  by_cases h : (validateErrors st.currentStep st.formData).isEmpty
  · by_cases h2 : st.currentStep < (steps.length : Int) - 1
    · simp [handleNext, validateCurrentStep, h, h2]
    · simpa [handleNext, validateCurrentStep, h, h2] using
        handleSubmit_no_storage { st with errors := validateErrors st.currentStep st.formData }
  · simp [handleNext, validateCurrentStep, h]

/-- What local storage looks like after the Save Progress effects. -/
lemma applyEffects_save (st : FormState) (ls : LocalStore) :
    applyEffects ls (handleSaveProgress st).2 =
      ("kundaliFormStep", .str (toString st.currentStep)) ::
      ("kundaliFormData", .json st.formData) ::
      ((ls.filter (fun p => !(p.1 == "kundaliFormData"))).filter
         (fun p => !(p.1 == "kundaliFormStep"))) := by
  have hkeys : (("kundaliFormData" : String) == "kundaliFormStep") = false := by decide
  simp [handleSaveProgress, applyEffects, applyEffect, List.filter_cons, hkeys]

/-- Claim C7: the only persisted state is the pair of local-storage entries
written by Save Progress (`"kundaliFormData"` holding the form snapshot and
`"kundaliFormStep"` holding the step index); Save Progress leaves the form
state untouched; no other handler writes storage; the saved entries are
read back by lookup, and the results page displays the saved name
(falling back to `"User"` for an empty saved name) and `"User"` whenever
the `"kundaliFormData"` entry is absent. -/
theorem claim_c7 (st : FormState) (ls : LocalStore) :
    (handleSaveProgress st).1 = st ∧
    (handleSaveProgress st).2 =
      [Effect.localStorageSet "kundaliFormData" (.json st.formData),
       Effect.localStorageSet "kundaliFormStep" (.str (toString st.currentStep)),
       Effect.toastSuccess "Progress saved!"
         "You can resume from this point later."] ∧
    (handleNext st).2.filter Effect.isStorageWrite = [] ∧
    (handleSubmit st).2.filter Effect.isStorageWrite = [] ∧
    (handleReset st).2.filter Effect.isStorageWrite = [] ∧
    List.lookup "kundaliFormData" (applyEffects ls (handleSaveProgress st).2) =
      some (.json st.formData) ∧
    List.lookup "kundaliFormStep" (applyEffects ls (handleSaveProgress st).2) =
      some (.str (toString st.currentStep)) ∧
    resultsPageUserName (applyEffects ls (handleSaveProgress st).2) =
      (if st.formData.name = "" then "User" else st.formData.name) ∧
    resultsPageUserName (ls.filter (fun p => !(p.1 == "kundaliFormData"))) =
      "User" := by
  have hne : ("kundaliFormData" : String) ≠ "kundaliFormStep" := by decide
  refine ⟨rfl, rfl, handleNext_no_storage st, handleSubmit_no_storage st,
    rfl, ?_, ?_, ?_, ?_⟩
  · rw [applyEffects_save, lookup_cons, if_neg hne, lookup_cons, if_pos rfl]
  · rw [applyEffects_save, lookup_cons, if_pos rfl]
  · rw [resultsPageUserName, applyEffects_save, lookup_cons, if_neg hne,
      lookup_cons, if_pos rfl]
  · rw [resultsPageUserName, lookup_filterKey_self]

/-- Claim C8: the astrological result content is independent of the
submitted input — the planets, houses and Dasha rows rendered by
`KundaliResults` are the same for any two form-data values and are exactly
the module-load constants, and the `PlanetaryPositions` table (whose
component receives no form data at all) renders the constant
`planetaryData` once loading is over. -/
theorem claim_c8 :
    (∀ fd1 fd2 : KundaliFormData,
       kundaliResultsPlanets fd1 = kundaliResultsPlanets fd2 ∧
       kundaliResultsHouses fd1 = kundaliResultsHouses fd2 ∧
       kundaliResultsDashas fd1 = kundaliResultsDashas fd2) ∧
    (∀ fd : KundaliFormData,
       kundaliResultsPlanets fd = planets ∧
       kundaliResultsHouses fd = houses ∧
       kundaliResultsDashas fd = dashas) ∧
    planetaryPositionsRows false = some planetaryData ∧
    planetaryPositionsRows true = none :=
  ⟨fun _ _ => ⟨rfl, rfl, rfl⟩, fun _ => ⟨rfl, rfl, rfl⟩, rfl, rfl⟩

/-- One operation preserves the step-index bounds `0 ≤ step ≤ 2`. -/
lemma stepBounds_applyOp (st : FormState) (op : Op)
    (h0 : 0 ≤ st.currentStep) (h2 : st.currentStep ≤ 2) :
    0 ≤ (applyOp st op).currentStep ∧ (applyOp st op).currentStep ≤ 2 := by
  cases op with
  | next =>
    by_cases hv : (validateErrors st.currentStep st.formData).isEmpty
    · by_cases hlt : st.currentStep < (steps.length : Int) - 1
      · have hlt2 : st.currentStep < 2 := by simpa [steps] using hlt
        constructor <;> simp [applyOp, handleNext, validateCurrentStep, hv, hlt] <;> omega
      · have : (applyOp st Op.next).currentStep = st.currentStep := by
          simp [applyOp, handleNext, validateCurrentStep, hv, hlt, handleSubmit_fst]
        rw [this]; exact ⟨h0, h2⟩
    · simp [applyOp, handleNext, validateCurrentStep, hv]
      exact ⟨h0, h2⟩
  | back =>
    by_cases h : st.currentStep > 0 <;>
      constructor <;> simp [applyOp, handlePrevious, h] <;> omega
  | reset => exact ⟨le_refl 0, by show (0 : Int) ≤ 2; decide⟩
  | save => exact ⟨h0, h2⟩
  | update f v => exact ⟨h0, h2⟩

/-- Claim C9: starting from step 0, every sequence of Next, Back, Reset,
Save Progress and field-update operations keeps the step index between 0
and 2 inclusive. -/
theorem claim_c9 (ops : List Op) :
    0 ≤ (runOps initialState ops).currentStep ∧
    (runOps initialState ops).currentStep ≤ 2 := by
  have main : ∀ (l : List Op) (st : FormState),
      0 ≤ st.currentStep → st.currentStep ≤ 2 →
      0 ≤ (runOps st l).currentStep ∧ (runOps st l).currentStep ≤ 2 := by
    intro l
    induction l with
    | nil => intro st h0 h2; exact ⟨h0, h2⟩
    | cons op rest ih =>
      intro st h0 h2
      obtain ⟨a, b⟩ := stepBounds_applyOp st op h0 h2
      exact ih _ a b
  exact main ops initialState (by decide) (by decide)

/-- Claim C10: updating one field changes only that field in the form data,
leaves the step unchanged, removes at most the entry of that field from the
error map (exactly when it was present — error messages in this program
are never the empty string, which the hypothesis records), and leaves
every other error entry unchanged. -/
theorem claim_c10 (st : FormState) (f : Field) (v : FieldType f)
    (hmsg : ∀ p ∈ st.errors, p.2 ≠ "") :
    getField (handleUpdateFormData st f v).formData f = v ∧
    (∀ g : Field, g ≠ f →
       getField (handleUpdateFormData st f v).formData g =
         getField st.formData g) ∧
    (∀ k : String, k ≠ Field.key f →
       List.lookup k (handleUpdateFormData st f v).errors =
         List.lookup k st.errors) ∧
    List.lookup (Field.key f) (handleUpdateFormData st f v).errors = none ∧
    (List.lookup (Field.key f) st.errors = none →
       (handleUpdateFormData st f v).errors = st.errors) ∧
    (handleUpdateFormData st f v).currentStep = st.currentStep := by
  have herr : (handleUpdateFormData st f v).errors =
      if jsTruthyStr (List.lookup (Field.key f) st.errors) then
        st.errors.filter (fun p => !(p.1 == Field.key f))
      else st.errors := rfl
  refine ⟨?_, ?_, ?_, ?_, ?_, rfl⟩
  · cases f <;> rfl
  · intro g hg
    cases f <;> cases g <;> first
      | exact absurd rfl hg
      | rfl
  · intro k hk
    rw [herr]
    by_cases hguard : jsTruthyStr (List.lookup (Field.key f) st.errors) = true
    · rw [if_pos hguard, lookup_filterKey_ne hk]
    · rw [if_neg (by simpa using hguard)]
  · rw [herr]
    by_cases hguard : jsTruthyStr (List.lookup (Field.key f) st.errors) = true
    · rw [if_pos hguard, lookup_filterKey_self]
    · rw [if_neg (by simpa using hguard)]
      cases hl : List.lookup (Field.key f) st.errors with
      | none => rfl
      | some m =>
        exfalso
        have hm : m ≠ "" := hmsg _ (lookup_mem hl)
        rw [hl] at hguard
        exact hguard (by simp [jsTruthyStr, hm])
  · intro hnone
    rw [herr, hnone, if_neg]
    simp [jsTruthyStr]

/-- A concrete state with two (non-empty) error messages, used by the C10
witness. -/
def updateWitnessState : FormState :=
  { currentStep := 0, formData := initialFormData,
    errors := [("name", "Name is required"), ("email", "Email is required")] }

/-- Witness for C10: updating the `name` field on a state carrying the
`name` and `email` errors keeps every other field and error entry, and
removes the `name` entry. -/
theorem claim_c10_witness :
    (∀ p ∈ updateWitnessState.errors, p.2 ≠ "") ∧
    (getField (handleUpdateFormData updateWitnessState .name "Ana").formData
        .name = "Ana" ∧
     (∀ g : Field, g ≠ .name →
        getField (handleUpdateFormData updateWitnessState .name "Ana").formData g =
          getField updateWitnessState.formData g) ∧
     (∀ k : String, k ≠ Field.key .name →
        List.lookup k (handleUpdateFormData updateWitnessState .name "Ana").errors =
          List.lookup k updateWitnessState.errors) ∧
     List.lookup (Field.key .name)
       (handleUpdateFormData updateWitnessState .name "Ana").errors = none ∧
     (List.lookup (Field.key .name) updateWitnessState.errors = none →
        (handleUpdateFormData updateWitnessState .name "Ana").errors =
          updateWitnessState.errors) ∧
     (handleUpdateFormData updateWitnessState .name "Ana").currentStep =
       updateWitnessState.currentStep) :=
  ⟨by decide, claim_c10 updateWitnessState .name "Ana" (by decide)⟩

end Kundali
